import Mathlib

/-!
Verification development for the benchmark-orchestration engine
(bench/metrics.py, bench/runner.py, bench/verify.py, bench/improve.py,
bench/report.py).

Each Python function relevant to the checked properties is shallowly
embedded as an executable Lean definition:

- the SQLite table of per-attempt rows becomes a list of RunRow records,
  with inserts modelled as appends and ORDER BY timestamp DESC modelled
  as a stable merge sort on the timestamp field (descending);
- monetary amounts, pass rates and timestamps are rationals;
- the retry loop forms of the runner and verification client become
  structural recursions over explicit scripts of external events;
- Python exceptions become explicit sum types (Except / Option).

Floats are modelled as rationals: every arithmetic operation involved
(count, division of small integers, comparison against 0.7) is exact in
IEEE double for the ranges in question, so no rounding behaviour is lost.
-/

/-! ### A computable stable sort

Used to model both the ORDER BY clause of the SQLite queries and the stable
Python sorted builtin.  It is an insertion sort placing each element before
the first already-placed element it compares le-equal-or-below, which keeps
the original relative order of elements the comparator cannot distinguish
(the stability guarantee of Python sorted; SQLite leaves tie order
unspecified, so this is a valid determinisation of ORDER BY as well). -/

/-- Insert an element into a le-sorted list, before any tie. -/
def insert_sorted (le : α → α → Bool) (a : α) : List α → List α
  | [] => [a]
  | b :: l => if le a b then a :: b :: l else b :: insert_sorted le a l

/-- Stable insertion sort, ascending with respect to the comparator. -/
def sort_by (le : α → α → Bool) : List α → List α
  | [] => []
  | a :: l => insert_sorted le a (sort_by le l)

lemma insert_sorted_perm (le : α → α → Bool) (a : α) :
    ∀ l : List α, (insert_sorted le a l).Perm (a :: l) := by
  intro l
  induction l with
  | nil => exact List.Perm.refl _
  | cons b l ih =>
    by_cases h : le a b = true
    · simp [insert_sorted, h]
    · simp only [insert_sorted, h, if_false, Bool.false_eq_true]
      exact (ih.cons b).trans (List.Perm.swap a b l)

lemma sort_by_perm (le : α → α → Bool) :
    ∀ l : List α, (sort_by le l).Perm l := by
  intro l
  induction l with
  | nil => exact List.Perm.refl _
  | cons a l ih =>
    exact (insert_sorted_perm le a (sort_by le l)).trans (ih.cons a)

lemma insert_sorted_pairwise (le : α → α → Bool)
    (htrans : ∀ a b c, le a b = true → le b c = true → le a c = true)
    (htot : ∀ a b, (le a b || le b a) = true) (a : α) :
    ∀ l : List α, l.Pairwise (fun x y => le x y = true) →
      (insert_sorted le a l).Pairwise (fun x y => le x y = true) := by
  intro l
  induction l with
  | nil => intro _; simp [insert_sorted]
  | cons b l ih =>
    intro hp
    rcases List.pairwise_cons.mp hp with ⟨hb, hl⟩
    by_cases h : le a b = true
    · rw [insert_sorted, if_pos h]
      refine List.pairwise_cons.mpr ⟨?_, hp⟩
      intro c hc
      rcases List.mem_cons.mp hc with rfl | hc
      · exact h
      · exact htrans a b c h (hb c hc)
    · rw [insert_sorted, if_neg h]
      have hba : le b a = true := by
        have := htot a b
        rcases Bool.or_eq_true_iff.mp this with h1 | h1
        · exact absurd h1 h
        · exact h1
      refine List.pairwise_cons.mpr ⟨?_, ih hl⟩
      intro c hc
      have hc' : c ∈ a :: l := (insert_sorted_perm le a l).mem_iff.mp hc
      rcases List.mem_cons.mp hc' with rfl | hc'
      · exact hba
      · exact hb c hc'

lemma sort_by_pairwise (le : α → α → Bool)
    (htrans : ∀ a b c, le a b = true → le b c = true → le a c = true)
    (htot : ∀ a b, (le a b || le b a) = true) :
    ∀ l : List α, (sort_by le l).Pairwise (fun x y => le x y = true) := by
  intro l
  induction l with
  | nil => simp [sort_by]
  | cons a l ih =>
    exact insert_sorted_pairwise le htrans htot a (sort_by le l) ih

/-! ### Metrics layer (bench/metrics.py)

One RunRow per row of the runs table, restricted to the columns that the
aggregate queries read (scenario_id, passed, total_cost_usd, timestamp).
-/

/-- A row of the runs table, as written by MetricsCollector.store. -/
structure RunRow where
  scenario_id : String
  passed : Bool
  total_cost_usd : Option ℚ
  timestamp : ℚ
  deriving Repr, DecidableEq

/-- MetricsCollector.store: INSERT appends one row to the runs table. -/
def store (db : List RunRow) (row : RunRow) : List RunRow :=
  db ++ [row]

/-- Comparator realising ORDER BY timestamp DESC (larger timestamps first). -/
def ts_desc (a b : RunRow) : Bool :=
  decide (b.timestamp ≤ a.timestamp)

/-- The query of get_pass_rate: SELECT passed FROM runs WHERE scenario_id = ?
ORDER BY timestamp DESC (before LIMIT). -/
def runsByTimestampDesc (db : List RunRow) (sid : String) : List RunRow :=
  sort_by ts_desc (db.filter (fun r => r.scenario_id == sid))

/-- MetricsCollector.get_pass_rate: pass count over the last N runs of the
scenario in timestamp-descending order, 0.0 when the query returns no rows. -/
def get_pass_rate (db : List RunRow) (sid : String) (last_n : ℕ) : ℚ :=
  let rows := (runsByTimestampDesc db sid).take last_n
  if rows.isEmpty then 0
  else (rows.countP (fun r => r.passed) : ℚ) / (rows.length : ℚ)

/-- The query of get_cost_trend: WHERE scenario_id = ? AND total_cost_usd IS
NOT NULL ORDER BY timestamp DESC (before LIMIT). -/
def costedByTimestampDesc (db : List RunRow) (sid : String) : List RunRow :=
  sort_by ts_desc (db.filter (fun r => r.scenario_id == sid && r.total_cost_usd.isSome))

/-- The rows underlying the returned trend: LIMIT last_n, then the reversal
performed by the Python list comprehension over reversed(rows). -/
def cost_trend_rows (db : List RunRow) (sid : String) (last_n : ℕ) : List RunRow :=
  ((costedByTimestampDesc db sid).take last_n).reverse

/-- MetricsCollector.get_cost_trend: the non-null costs of the last N costed
runs, oldest first. -/
def get_cost_trend (db : List RunRow) (sid : String) (last_n : ℕ) : List ℚ :=
  (cost_trend_rows db sid last_n).filterMap (fun r => r.total_cost_usd)

lemma ts_desc_trans : ∀ a b c : RunRow,
    ts_desc a b = true → ts_desc b c = true → ts_desc a c = true := by
  intro a b c hab hbc
  simp only [ts_desc, decide_eq_true_eq] at *
  exact le_trans hbc hab

lemma ts_desc_total : ∀ a b : RunRow, (ts_desc a b || ts_desc b a) = true := by
  intro a b
  simp only [ts_desc, Bool.or_eq_true, decide_eq_true_eq]
  exact le_total b.timestamp a.timestamp

lemma runsByTimestampDesc_sorted (db : List RunRow) (sid : String) :
    (runsByTimestampDesc db sid).Pairwise (fun a b => b.timestamp ≤ a.timestamp) := by
  have h := sort_by_pairwise ts_desc ts_desc_trans ts_desc_total
    (db.filter (fun r => r.scenario_id == sid))
  refine h.imp ?_
  intro a b hab
  simpa [ts_desc] using hab

lemma runsByTimestampDesc_perm (db : List RunRow) (sid : String) :
    (runsByTimestampDesc db sid).Perm (db.filter (fun r => r.scenario_id == sid)) :=
  sort_by_perm _ _

lemma costedByTimestampDesc_sorted (db : List RunRow) (sid : String) :
    (costedByTimestampDesc db sid).Pairwise (fun a b => b.timestamp ≤ a.timestamp) := by
  have h := sort_by_pairwise ts_desc ts_desc_trans ts_desc_total
    (db.filter (fun r => r.scenario_id == sid && r.total_cost_usd.isSome))
  refine h.imp ?_
  intro a b hab
  simpa [ts_desc] using hab

lemma costedByTimestampDesc_perm (db : List RunRow) (sid : String) :
    (costedByTimestampDesc db sid).Perm
      (db.filter (fun r => r.scenario_id == sid && r.total_cost_usd.isSome)) :=
  sort_by_perm _ _

/-- Convenience constructor for rows in example databases. -/
def mk_row (sid : String) (p : Bool) (c : Option ℚ) (t : ℚ) : RunRow :=
  ⟨sid, p, c, t⟩

/-- Database obtained by storing 3 passing then 1 failing run for one scenario,
timestamps ascending (the store of the C4 example). -/
def pass_rate_example_db : List RunRow :=
  store (store (store (store []
    (mk_row ("scn") true none 1))
    (mk_row ("scn") true none 2))
    (mk_row ("scn") true none 3))
    (mk_row ("scn") false none 4)

/-- Database with 5 costed runs, costs 0.01 .. 0.05, timestamps ascending
(the store of the C5 example). -/
def cost_trend_example_db : List RunRow :=
  store (store (store (store (store []
    (mk_row ("scn") true (some (1/100)) 1))
    (mk_row ("scn") true (some (2/100)) 2))
    (mk_row ("scn") true (some (3/100)) 3))
    (mk_row ("scn") true (some (4/100)) 4))
    (mk_row ("scn") true (some (5/100)) 5)

/-- Database where the middle of 3 stored runs of the scenario has a null
cost (the store of the C10 example). -/
def null_cost_example_db : List RunRow :=
  store (store (store []
    (mk_row ("scn") true (some (1/100)) 1))
    (mk_row ("scn") true none 2))
    (mk_row ("scn") false (some (3/100)) 3)

/-- Claim C4: get_pass_rate returns passing-count over returned-count for the
last N runs of the scenario in timestamp-descending order; it returns exactly
0 when no runs are stored for the scenario; storing 3 passing and 1 failing
run for one scenario gives rate 3/4 at N = 10. -/
theorem get_pass_rate_spec :
    (∀ db sid last_n, (∀ r ∈ db, r.scenario_id ≠ sid) →
      get_pass_rate db sid last_n = 0) ∧
    (∀ db sid last_n rows, rows = (runsByTimestampDesc db sid).take last_n →
      rows ≠ [] →
      get_pass_rate db sid last_n =
        (rows.countP (fun r => r.passed) : ℚ) / (rows.length : ℚ)) ∧
    (∀ db sid,
      (runsByTimestampDesc db sid).Pairwise (fun a b => b.timestamp ≤ a.timestamp) ∧
      (runsByTimestampDesc db sid).Perm (db.filter (fun r => r.scenario_id == sid))) ∧
    get_pass_rate pass_rate_example_db ("scn") 10 = 3/4 := by
  refine ⟨?_, ?_, ?_, ?_⟩
  · intro db sid last_n hnone
    have hfil : db.filter (fun r => r.scenario_id == sid) = [] := by
      rw [List.filter_eq_nil_iff]
      intro r hr
      simpa using hnone r hr
    simp [get_pass_rate, runsByTimestampDesc, hfil, sort_by]
  · intro db sid last_n rows hrows hne
    have hemp : rows.isEmpty = false := by
      cases rows with
      | nil => exact absurd rfl hne
      | cons a l => rfl
    simp only [get_pass_rate, ← hrows, hemp]
    simp
  · intro db sid
    exact ⟨runsByTimestampDesc_sorted db sid, runsByTimestampDesc_perm db sid⟩
  · have h : (runsByTimestampDesc pass_rate_example_db ("scn")).take 10 =
        [mk_row ("scn") false none 4, mk_row ("scn") true none 3,
         mk_row ("scn") true none 2, mk_row ("scn") true none 1] := by decide
    have hc : (List.countP (fun r => r.passed)
        [mk_row ("scn") false none 4, mk_row ("scn") true none 3,
         mk_row ("scn") true none 2, mk_row ("scn") true none 1]) = 3 := by decide
    rw [get_pass_rate]
    simp only [h, hc]
    norm_num

/-- Closed instance discharging the hypotheses of get_pass_rate_spec: the
zero-state at an empty store and the count-over-length form at the 4-run
example store. -/
theorem get_pass_rate_spec_witness :
    get_pass_rate [] ("other") 5 = 0 ∧
    get_pass_rate pass_rate_example_db ("scn") 10 =
      ((((runsByTimestampDesc pass_rate_example_db ("scn")).take 10).countP
          (fun r => r.passed) : ℚ) /
        (((runsByTimestampDesc pass_rate_example_db ("scn")).take 10).length : ℚ)) :=
  ⟨get_pass_rate_spec.1 [] ("other") 5 (by simp),
   get_pass_rate_spec.2.1 pass_rate_example_db ("scn") 10 _ rfl (by decide)⟩

/-- Claim C5: get_cost_trend returns the costs of at most the last N costed
runs in ascending-timestamp (chronological) order, obtained by reversing the
descending query result; on 5 stored runs with costs 0.01 .. 0.05 it returns
exactly that ascending list. -/
theorem get_cost_trend_chronological :
    (∀ db sid last_n,
      (cost_trend_rows db sid last_n).Pairwise
        (fun a b => a.timestamp ≤ b.timestamp)) ∧
    (∀ db sid last_n,
      get_cost_trend db sid last_n =
        (((costedByTimestampDesc db sid).take last_n).filterMap
          (fun r => r.total_cost_usd)).reverse) ∧
    (∀ db sid last_n, (get_cost_trend db sid last_n).length ≤ last_n) ∧
    get_cost_trend cost_trend_example_db ("scn") 10 =
      [1/100, 2/100, 3/100, 4/100, 5/100] := by
  refine ⟨?_, ?_, ?_, rfl⟩
  · intro db sid last_n
    have hdesc := (costedByTimestampDesc_sorted db sid).sublist
      (List.take_sublist last_n _)
    rw [cost_trend_rows, List.pairwise_reverse]
    exact hdesc.imp (fun h => h)
  · intro db sid last_n
    rw [get_cost_trend, cost_trend_rows, List.filterMap_reverse]
  · intro db sid last_n
    calc (get_cost_trend db sid last_n).length
        ≤ (cost_trend_rows db sid last_n).length :=
          List.length_filterMap_le _ _
      _ = ((costedByTimestampDesc db sid).take last_n).length := by
          rw [cost_trend_rows, List.length_reverse]
      _ ≤ last_n := List.length_take_le _ _

/-- Claim C10: get_cost_trend silently excludes stored runs whose cost is
null: every returned cost comes from a stored non-null-cost row of the
scenario, deleting the null-cost rows from the store does not change the
result, and on a store with 3 runs for the scenario of which the middle one
has a null cost the trend has only 2 entries. -/
theorem get_cost_trend_skips_null :
    (∀ db sid last_n x, x ∈ get_cost_trend db sid last_n →
      ∃ r ∈ db, r.scenario_id = sid ∧ r.total_cost_usd = some x) ∧
    (∀ db sid last_n,
      get_cost_trend db sid last_n =
        get_cost_trend (db.filter (fun r => r.total_cost_usd.isSome)) sid last_n) ∧
    (get_cost_trend null_cost_example_db ("scn") 10 = [1/100, 3/100] ∧
      null_cost_example_db.countP (fun r => r.scenario_id == "scn") = 3 ∧
      (get_cost_trend null_cost_example_db ("scn") 10).length <
        null_cost_example_db.countP (fun r => r.scenario_id == "scn")) := by
  refine ⟨?_, ?_, rfl, by decide, ?_⟩
  · intro db sid last_n x hx
    rw [get_cost_trend] at hx
    rcases List.mem_filterMap.mp hx with ⟨r, hr, hcost⟩
    rw [cost_trend_rows, List.mem_reverse] at hr
    have hr2 : r ∈ costedByTimestampDesc db sid := List.take_subset _ _ hr
    have hr3 : r ∈ db.filter (fun s => s.scenario_id == sid && s.total_cost_usd.isSome) :=
      (costedByTimestampDesc_perm db sid).mem_iff.mp hr2
    rcases List.mem_filter.mp hr3 with ⟨hrdb, hpred⟩
    rcases Bool.and_eq_true_iff.mp hpred with ⟨hsid, _⟩
    exact ⟨r, hrdb, by simpa using hsid, hcost⟩
  · intro db sid last_n
    have hbase : (db.filter (fun r => r.total_cost_usd.isSome)).filter
        (fun r => r.scenario_id == sid && r.total_cost_usd.isSome) =
        db.filter (fun r => r.scenario_id == sid && r.total_cost_usd.isSome) := by
      rw [List.filter_filter]
      apply List.filter_congr
      intro x _
      cases hA : (x.scenario_id == sid) <;> cases hB : x.total_cost_usd.isSome <;>
        simp [hA, hB]
    simp only [get_cost_trend, cost_trend_rows, costedByTimestampDesc, hbase]
  · have h2 : get_cost_trend null_cost_example_db ("scn") 10 = [1/100, 3/100] := rfl
    rw [h2]
    decide

/-- Closed instance discharging the membership hypothesis of
get_cost_trend_skips_null at the example store. -/
theorem get_cost_trend_skips_null_witness :
    ∃ r ∈ null_cost_example_db, r.scenario_id = "scn" ∧ r.total_cost_usd = some (1/100) :=
  get_cost_trend_skips_null.1 null_cost_example_db ("scn") 10 (1/100)
    (by
      have h : get_cost_trend null_cost_example_db ("scn") 10 = [1/100, 3/100] := rfl
      rw [h]
      exact List.mem_cons_self _ _)

/-! ### Scenario runner (bench/runner.py)

The attempt body (the try/except block of BenchmarkRunner.run_scenario) is
modelled in two layers, mirroring the code structure:

- classify_attempt embeds the outcome classification of one attempt given a
  script of what the external collaborators did (exceptions raised, the
  terminal summary message, verification outcomes);
- run_loop embeds the for-attempt retry loop, parametrised by the failure
  category each attempt body would produce, and records every
  collector.store call and every asyncio.sleep call.
-/

/-- The exceptions the except clauses of run_scenario distinguish. -/
inductive ExcKind
  | timeoutError
  | connectionRefused
  | otherExc (msg : String)
  deriving Repr, DecidableEq

/-- Failure category assigned by the except clauses: TimeoutError and
ConnectionRefusedError are infrastructure, anything else agent_error. -/
def exc_category : ExcKind → String
  | .timeoutError => "infrastructure"
  | .connectionRefused => "infrastructure"
  | .otherExc _ => "agent_error"

/-- Error string assigned by the except clauses. -/
def exc_message : ExcKind → String
  | .timeoutError => "Scenario timed out"
  | .connectionRefused => "Browser WebSocket connection refused"
  | .otherExc m => m

/-- The fields of the terminal ResultMessage that the classification reads. -/
structure ResultMsg where
  is_error : Bool
  result : Option String
  deriving Repr, DecidableEq

/-- What the external collaborators do during one attempt: an exception
raised in setup or while consuming the agent stream, the terminal summary
(none when the stream ended without one), an exception raised while
capturing browser state, and the value of each verification predicate. -/
structure AttemptScript where
  agent_exc : Option ExcKind
  result_msg : Option ResultMsg
  verify_exc : Option ExcKind
  verifications : List (String × Bool)
  deriving Repr, DecidableEq

/-- The attempt fields that _build_result reads from the ScenarioRun. -/
structure ClassifiedRun where
  error : Option String
  failure_category : Option String
  verification_results : List (String × Bool)
  deriving Repr, DecidableEq

/-- The try/except body of one attempt of run_scenario: agent-error check,
then state capture and verification, with the except clauses mapping raised
exceptions to categories. -/
def classify_attempt (s : AttemptScript) : ClassifiedRun :=
  match s.agent_exc with
  | some k =>
    { error := some (exc_message k), failure_category := some (exc_category k),
      verification_results := [] }
  | none =>
    match s.result_msg with
    | none =>
      { error := some ("No result message"), failure_category := some ("agent_error"),
        verification_results := [] }
    | some m =>
      if m.is_error then
        { error := m.result, failure_category := some ("agent_error"),
          verification_results := [] }
      else
        match s.verify_exc with
        | some k =>
          { error := some (exc_message k), failure_category := some (exc_category k),
            verification_results := [] }
        | none =>
          { error := none,
            failure_category :=
              if s.verifications.all (fun p => p.2) then none
              else some ("verification_failure"),
            verification_results := s.verifications }

/-- The passed field computed by _build_result: failure_category is None. -/
def result_passed (c : ClassifiedRun) : Bool :=
  c.failure_category == none

/-- Claim C2: a RunResult passes iff its failure_category is None, and the
category is None iff the agent produced a summary without the error flag, no
exception was raised during the attempt, and every verification predicate
held on the captured state. -/
theorem run_result_passed_iff :
    ∀ s : AttemptScript,
      (result_passed (classify_attempt s) = true ↔
        (classify_attempt s).failure_category = none) ∧
      ((classify_attempt s).failure_category = none ↔
        (s.agent_exc = none ∧ s.verify_exc = none ∧
          ∃ m, s.result_msg = some m ∧ m.is_error = false ∧
            ∀ p ∈ s.verifications, p.2 = true)) := by
  intro s
  refine ⟨by simp [result_passed], ?_⟩
  cases hag : s.agent_exc with
  | some k => cases k <;> simp [classify_attempt, hag, exc_category]
  | none =>
    cases hrm : s.result_msg with
    | none => simp [classify_attempt, hag, hrm]
    | some m =>
      cases hie : m.is_error with
      | true => simp [classify_attempt, hag, hrm, hie]
      | false =>
        cases hv : s.verify_exc with
        | some k => cases k <;> simp [classify_attempt, hag, hrm, hie, hv, exc_category]
        | none =>
          by_cases hall : s.verifications.all (fun p => p.2) = true
          · have hcls : (classify_attempt s).failure_category = none := by
              simp [classify_attempt, hag, hrm, hie, hv, hall]
            rw [hcls]
            constructor
            · intro _
              exact ⟨rfl, rfl, m, rfl, hie, fun p hp => List.all_eq_true.mp hall p hp⟩
            · intro _
              rfl
          · have hcls : (classify_attempt s).failure_category =
                some ("verification_failure") := by
              simp [classify_attempt, hag, hrm, hie, hv, hall]
            rw [hcls]
            constructor
            · intro h
              exact absurd h (by simp)
            · rintro ⟨-, -, m', hm', -, hallp⟩
              exact absurd (List.all_eq_true.mpr hallp) hall

/-- The RunResult fields claim C1 tracks per persisted attempt. -/
structure AttemptRec where
  attempt : ℕ
  failure_category : Option String
  passed : Bool
  deriving Repr, DecidableEq

/-- _build_result restricted to the loop-relevant fields (passed is the
failure_category-is-None test, as in claim C2). -/
def build_result_rec (attempt : ℕ) (cat : Option String) : AttemptRec :=
  { attempt := attempt, failure_category := cat, passed := cat == none }

/-- The break test of the retry loop, with the redundant None disjunct kept
as written in the source. -/
def break_after (cat : Option String) : Bool :=
  cat == none || cat != some ("infrastructure")

/-- Observable effects of one run_scenario call: every collector.store call
in order, the argument of every asyncio.sleep call in order, and the local
variable result. -/
structure RunState where
  persisted : List AttemptRec
  delays : List ℕ
  result : Option AttemptRec
  deriving Repr, DecidableEq

/-- The for-attempt loop of run_scenario.  outcome gives the failure
category each attempt body would produce; the second numeric argument is
the number of iterations that range(1, max_attempts + 1) still holds. -/
def run_loop (outcome : ℕ → Option String) (max_attempts : ℕ) :
    ℕ → ℕ → RunState → RunState
  | _, 0, st => st
  | attempt, r + 1, st =>
    let res := build_result_rec attempt (outcome attempt)
    let st1 : RunState :=
      { persisted := st.persisted ++ [res], delays := st.delays, result := some res }
    if break_after (outcome attempt) then st1
    else
      run_loop outcome max_attempts (attempt + 1) r
        (if attempt < max_attempts then { st1 with delays := st1.delays ++ [2] } else st1)

/-- BenchmarkRunner.run_scenario with the per-attempt bodies abstracted by
outcome (the classification they produce is claim C2's concern). -/
def run_scenario (outcome : ℕ → Option String) (max_attempts : ℕ) : RunState :=
  run_loop outcome max_attempts 1 max_attempts ⟨[], [], none⟩

/-- How many attempts the loop makes from a given attempt index and
iteration budget. -/
def attempts_made (outcome : ℕ → Option String) : ℕ → ℕ → ℕ
  | _, 0 => 0
  | a, r + 1 =>
    if break_after (outcome a) then 1 else 1 + attempts_made outcome (a + 1) r

lemma break_after_eq_false (cat : Option String) :
    break_after cat = false ↔ cat = some ("infrastructure") := by
  cases cat with
  | none => simp [break_after]
  | some c => simp [break_after]

lemma attempts_made_le (o : ℕ → Option String) :
    ∀ r a, attempts_made o a r ≤ r := by
  intro r
  induction r with
  | zero => intro a; simp [attempts_made]
  | succ r ih =>
    intro a
    rw [attempts_made]
    by_cases h : break_after (o a) = true
    · simp [h]
    · rw [if_neg h]
      have := ih (a + 1)
      omega

lemma attempts_made_pos (o : ℕ → Option String) (a r : ℕ) (h : 0 < r) :
    1 ≤ attempts_made o a r := by
  cases r with
  | zero => omega
  | succ r =>
    rw [attempts_made]
    by_cases hb : break_after (o a) = true
    · simp [hb]
    · rw [if_neg hb]
      omega

lemma attempts_made_all_infra (o : ℕ → Option String) :
    ∀ r a, (∀ k, a ≤ k → k < a + r → o k = some ("infrastructure")) →
      attempts_made o a r = r := by
  intro r
  induction r with
  | zero => intro a _; simp [attempts_made]
  | succ r ih =>
    intro a hall
    have ha : o a = some ("infrastructure") := hall a le_rfl (by omega)
    have hb : break_after (o a) = false := (break_after_eq_false _).mpr ha
    rw [attempts_made, if_neg (by simp [hb])]
    have := ih (a + 1) (fun k h1 h2 => hall k (by omega) (by omega))
    omega

lemma attempts_made_first_stop (o : ℕ → Option String) :
    ∀ r a j, j < r → (∀ i, i < j → o (a + i) = some ("infrastructure")) →
      break_after (o (a + j)) = true → attempts_made o a r = j + 1 := by
  intro r
  induction r with
  | zero => intro a j hj _ _; omega
  | succ r ih =>
    intro a j hj hinfra hstop
    cases j with
    | zero =>
      rw [attempts_made, if_pos (by simpa using hstop)]
    | succ j =>
      have ha : o a = some ("infrastructure") := by
        have := hinfra 0 (by omega)
        simpa using this
      have hb : break_after (o a) = false := (break_after_eq_false _).mpr ha
      rw [attempts_made, if_neg (by simp [hb])]
      have hrec := ih (a + 1) j (by omega)
        (fun i hi => by
          have := hinfra (i + 1) (by omega)
          simpa [Nat.add_assoc, Nat.add_comm 1 i] using this)
        (by
          have : a + 1 + j = a + (j + 1) := by omega
          rw [this]
          exact hstop)
      omega

lemma attempts_made_continues (o : ℕ → Option String) :
    ∀ r a j, j + 1 < attempts_made o a r → break_after (o (a + j)) = false := by
  intro r
  induction r with
  | zero => intro a j h; simp [attempts_made] at h
  | succ r ih =>
    intro a j h
    rw [attempts_made] at h
    by_cases hb : break_after (o a) = true
    · rw [if_pos hb] at h
      omega
    · rw [if_neg hb] at h
      cases j with
      | zero => simpa using hb
      | succ j =>
        have := ih (a + 1) j (by omega)
        have harith : a + 1 + j = a + (j + 1) := by omega
        rwa [harith] at this

lemma run_loop_closed_form (outcome : ℕ → Option String) (M : ℕ) :
    ∀ r a st, a + r = M + 1 →
      run_loop outcome M a r st =
        { persisted := st.persisted ++
            (List.range' a (attempts_made outcome a r)).map
              (fun k => build_result_rec k (outcome k)),
          delays := st.delays ++ List.replicate (attempts_made outcome a r - 1) 2,
          result := if attempts_made outcome a r = 0 then st.result
            else some (build_result_rec (a + (attempts_made outcome a r - 1))
              (outcome (a + (attempts_made outcome a r - 1)))) } := by
  intro r
  induction r with
  | zero =>
    intro a st _
    simp [run_loop, attempts_made]
  | succ r ih =>
    intro a st hinv
    by_cases hb : break_after (outcome a) = true
    · have hm : attempts_made outcome a (r + 1) = 1 := by
        rw [attempts_made, if_pos hb]
      rw [run_loop]
      simp only [hb, if_true, hm]
      simp [List.range'_succ]
    · have hm : attempts_made outcome a (r + 1) =
          1 + attempts_made outcome (a + 1) r := by
        rw [attempts_made, if_neg hb]
      rw [run_loop]
      simp only [hb, if_false, Bool.false_eq_true]
      cases r with
      | zero =>
        have haM : ¬(a < M) := by omega
        have hm0 : attempts_made outcome (a + 1) 0 = 0 := by rw [attempts_made]
        rw [if_neg haM]
        rw [ih (a + 1) _ (by omega)]
        simp only [hm, hm0]
        simp [List.range'_succ]
      | succ r' =>
        have haM : a < M := by omega
        have hpos : 1 ≤ attempts_made outcome (a + 1) (r' + 1) :=
          attempts_made_pos outcome (a + 1) (r' + 1) (by omega)
        rw [if_pos haM]
        rw [ih (a + 1) _ (by omega)]
        simp only [hm]
        rw [RunState.mk.injEq]
        refine ⟨?_, ?_, ?_⟩
        · rw [List.append_assoc]
          congr 1
          have h1 : 1 + attempts_made outcome (a + 1) (r' + 1) =
              attempts_made outcome (a + 1) (r' + 1) + 1 := by omega
          rw [h1, List.range'_succ]
          rfl
        · rw [List.append_assoc]
          congr 1
          have h1 : 1 + attempts_made outcome (a + 1) (r' + 1) - 1 =
              (attempts_made outcome (a + 1) (r' + 1) - 1) + 1 := by omega
          rw [h1, List.replicate_succ]
          rfl
        · have hne : ¬(attempts_made outcome (a + 1) (r' + 1) = 0) := by omega
          have hne2 : ¬(1 + attempts_made outcome (a + 1) (r' + 1) = 0) := by omega
          rw [if_neg hne, if_neg hne2]
          have harith : a + 1 + (attempts_made outcome (a + 1) (r' + 1) - 1) =
              a + (1 + attempts_made outcome (a + 1) (r' + 1) - 1) := by omega
          rw [harith]

lemma run_scenario_eq (outcome : ℕ → Option String) (N : ℕ) :
    run_scenario outcome N =
      { persisted := (List.range' 1 (attempts_made outcome 1 N)).map
          (fun k => build_result_rec k (outcome k)),
        delays := List.replicate (attempts_made outcome 1 N - 1) 2,
        result := if attempts_made outcome 1 N = 0 then none
          else some (build_result_rec (1 + (attempts_made outcome 1 N - 1))
            (outcome (1 + (attempts_made outcome 1 N - 1)))) } := by
  rw [run_scenario, run_loop_closed_form outcome N N 1 _ (by omega)]
  simp

/-- Claim C1: run_scenario makes at most max_attempts attempts, persists
exactly one RunResult per attempt made (attempts 1, 2, ... in order),
returns the last persisted result, sleeps 2 seconds between consecutive
attempts, goes on to another attempt only after an infrastructure failure,
persists exactly N results and returns the Nth when every attempt fails
with infrastructure, and stops at the first attempt whose category is not
infrastructure, having persisted exactly the attempts so far. -/
theorem run_scenario_retry_policy :
    ∀ (outcome : ℕ → Option String) (N : ℕ),
      ((run_scenario outcome N).persisted.length ≤ N) ∧
      ((run_scenario outcome N).persisted.map (fun a => a.attempt) =
        List.range' 1 (run_scenario outcome N).persisted.length) ∧
      ((run_scenario outcome N).result = (run_scenario outcome N).persisted.getLast?) ∧
      ((run_scenario outcome N).delays =
        List.replicate ((run_scenario outcome N).persisted.length - 1) 2) ∧
      (∀ k, 1 ≤ k → k + 1 ≤ (run_scenario outcome N).persisted.length →
        outcome k = some ("infrastructure")) ∧
      ((∀ k, 1 ≤ k → k ≤ N → outcome k = some ("infrastructure")) →
        (run_scenario outcome N).persisted.length = N ∧
        (1 ≤ N → (run_scenario outcome N).result =
          some (build_result_rec N (outcome N)))) ∧
      (∀ k, 1 ≤ k → k ≤ N → outcome k ≠ some ("infrastructure") →
        (∀ j, 1 ≤ j → j < k → outcome j = some ("infrastructure")) →
        (run_scenario outcome N).persisted.length = k ∧
        (run_scenario outcome N).result = some (build_result_rec k (outcome k))) := by
  intro outcome N
  have hlen : (run_scenario outcome N).persisted.length = attempts_made outcome 1 N := by
    rw [run_scenario_eq]
    simp
  refine ⟨?_, ?_, ?_, ?_, ?_, ?_, ?_⟩
  · rw [hlen]
    exact attempts_made_le outcome N 1
  · rw [hlen, run_scenario_eq]
    simp only [List.map_map]
    exact (List.map_congr_left (fun a _ => rfl)).trans (List.map_id _)
  · rw [run_scenario_eq]
    cases hm : attempts_made outcome 1 N with
    | zero => simp
    | succ mm =>
      simp only [Nat.succ_ne_zero, if_false]
      rw [List.range'_concat]
      simp only [List.map_append, List.map_cons, List.map_nil, List.getLast?_concat]
      have harith : 1 + (mm + 1 - 1) = 1 + 1 * mm := by omega
      rw [harith]
  · rw [hlen, run_scenario_eq]
  · intro k hk1 hk2
    rw [hlen] at hk2
    have hcont := attempts_made_continues outcome N 1 (k - 1) (by omega)
    have hidx : 1 + (k - 1) = k := by omega
    rw [hidx] at hcont
    exact (break_after_eq_false _).mp hcont
  · intro hall
    have hm : attempts_made outcome 1 N = N :=
      attempts_made_all_infra outcome N 1
        (fun k h1 h2 => hall k h1 (by omega))
    refine ⟨by rw [hlen, hm], ?_⟩
    intro hN
    rw [run_scenario_eq, hm]
    have hne : ¬(N = 0) := by omega
    rw [if_neg hne]
    have hidx : 1 + (N - 1) = N := by omega
    rw [hidx]
  · intro k hk1 hkN hkstop hkinfra
    have hstop : break_after (outcome (1 + (k - 1))) = true := by
      have hidx : 1 + (k - 1) = k := by omega
      rw [hidx]
      cases hbv : break_after (outcome k) with
      | false => exact absurd ((break_after_eq_false _).mp hbv) hkstop
      | true => rfl
    have hm : attempts_made outcome 1 N = k := by
      have := attempts_made_first_stop outcome N 1 (k - 1) (by omega)
        (fun i hi => hkinfra (1 + i) (by omega) (by omega)) hstop
      omega
    refine ⟨by rw [hlen, hm], ?_⟩
    rw [run_scenario_eq, hm]
    have hne : ¬(k = 0) := by omega
    rw [if_neg hne]
    have hidx : 1 + (k - 1) = k := by omega
    rw [hidx]

/-- Attempt bodies that always fail with an infrastructure category. -/
def all_infra_outcome : ℕ → Option String :=
  fun _ => some ("infrastructure")

/-- Attempt bodies where attempt 1 fails with infrastructure and attempt 2
passes. -/
def stop_at_two_outcome : ℕ → Option String :=
  fun k => if k = 1 then some ("infrastructure") else none

/-- Closed instance discharging the hypotheses of run_scenario_retry_policy:
with max_attempts 3 and all-infrastructure outcomes exactly 3 results are
persisted and the 3rd is returned; when attempt 2 is the first
non-infrastructure attempt, exactly 2 results are persisted and the 2nd is
returned; and attempt 1 is followed by attempt 2 only because it failed with
infrastructure. -/
theorem run_scenario_retry_policy_witness :
    (run_scenario all_infra_outcome 3).persisted.length = 3 ∧
    (run_scenario all_infra_outcome 3).result =
      some (build_result_rec 3 (all_infra_outcome 3)) ∧
    (run_scenario stop_at_two_outcome 3).persisted.length = 2 ∧
    (run_scenario stop_at_two_outcome 3).result =
      some (build_result_rec 2 (stop_at_two_outcome 2)) ∧
    all_infra_outcome 1 = some ("infrastructure") := by
  have h1 := run_scenario_retry_policy all_infra_outcome 3
  have h2 := run_scenario_retry_policy stop_at_two_outcome 3
  have hall : ∀ k, 1 ≤ k → k ≤ 3 → all_infra_outcome k = some ("infrastructure") :=
    fun k _ _ => rfl
  have hstop2 := h2.2.2.2.2.2.2 2 (by omega) (by omega) (by decide)
    (fun j hj1 hj2 => by
      have hj : j = 1 := by omega
      rw [hj]
      rfl)
  exact ⟨(h1.2.2.2.2.2.1 hall).1, (h1.2.2.2.2.2.1 hall).2 (by omega),
    hstop2.1, hstop2.2,
    h1.2.2.2.2.1 1 (by omega) (by decide)⟩

/-! ### Verification client (bench/verify.py)

BrowserVerifier._send_command is a two-iteration retry loop around one
transmission attempt; one transmission attempt is a send followed by up to
MAX_RECV_ATTEMPTS receives.  The remote endpoint and the transport are
modelled by a script: whether the send raises ConnectionClosed, and what
each successive receive yields.  asyncio.wait_for turning a silent
connection into TimeoutError is part of the receive event. -/

/-- One event produced by awaiting wait_for(ws.recv(), timeout). -/
inductive RecvEvent
  | closed
  | timedOut
  | message (idm : Bool) (err : Option String) (result : String)
  deriving Repr, DecidableEq

/-- The transport behaviour during one transmission attempt. -/
structure TryScript where
  send_closed : Bool
  recv : ℕ → RecvEvent

/-- Outcome of one transmission attempt of _send_command. -/
inductive TryOutcome
  | ok (result : String)
  | raiseError (msg : String)
  | raiseTimeout
  | raiseNoMatch
  | connClosed
  deriving Repr, DecidableEq

/-- verify.MAX_RECV_ATTEMPTS. -/
def MAX_RECV_ATTEMPTS : ℕ := 10

/-- The receive loop: read responses until the matching id arrives, raise on
an error field, give up after the receive budget is exhausted. -/
def recv_loop (recv : ℕ → RecvEvent) : ℕ → ℕ → TryOutcome
  | _, 0 => .raiseNoMatch
  | i, fuel + 1 =>
    match recv i with
    | .closed => .connClosed
    | .timedOut => .raiseTimeout
    | .message idm err r =>
      if idm then
        match err with
        | some m => .raiseError m
        | none => .ok r
      else recv_loop recv (i + 1) fuel

/-- One transmission attempt: the send, then the receive loop. -/
def try_send (s : TryScript) : TryOutcome :=
  if s.send_closed then .connClosed else recv_loop s.recv 0 MAX_RECV_ATTEMPTS

/-- Result of a whole _send_command call: its outcome (connClosed meaning
the ConnectionClosed exception was re-raised to the caller), how many times
_reconnect ran, and how many transmission attempts were started. -/
structure SendResult where
  outcome : TryOutcome
  reconnects : ℕ
  sends : ℕ
  deriving Repr, DecidableEq

/-- BrowserVerifier._send_command: only ConnectionClosed is caught, and only
the first time; everything else propagates immediately. -/
def send_command (t1 t2 : TryScript) : SendResult :=
  match try_send t1 with
  | .connClosed => { outcome := try_send t2, reconnects := 1, sends := 2 }
  | o => { outcome := o, reconnects := 0, sends := 1 }

/-- Script whose first receive times out. -/
def timeout_script : TryScript :=
  { send_closed := false, recv := fun _ => .timedOut }

/-- Script that answers the command successfully at once. -/
def ok_script : TryScript :=
  { send_closed := false, recv := fun _ => .message true none ("done") }

/-- Script whose send finds the connection closed. -/
def closed_script : TryScript :=
  { send_closed := true, recv := fun _ => .timedOut }

/-- Script answering the command with an error field. -/
def error_script : TryScript :=
  { send_closed := false, recv := fun _ => .message true (some ("boom")) ("") }

/-- Claim C3 counterexample: a timeout while awaiting a response does NOT
trigger a reconnect-and-retry; _send_command propagates the TimeoutError
immediately (0 reconnects, 1 transmission attempt), even though a successful
retry was available. -/
theorem send_command_timeout_not_retried :
    send_command timeout_script ok_script =
      { outcome := .raiseTimeout, reconnects := 0, sends := 1 } ∧
    ¬((send_command timeout_script ok_script).reconnects = 1 ∧
      (send_command timeout_script ok_script).sends = 2) := by
  refine ⟨by decide, by decide⟩

lemma try_send_open (s : TryScript) (h : s.send_closed = false) :
    try_send s = recv_loop s.recv 0 MAX_RECV_ATTEMPTS := by
  rw [try_send, h]
  simp

lemma recv_loop_first_match_error (recv : ℕ → RecvEvent) (i fuel : ℕ)
    (m r : String) (h : recv i = .message true (some m) r) :
    recv_loop recv i (fuel + 1) = .raiseError m := by
  rw [recv_loop, h]
  simp

lemma recv_loop_never_matches (recv : ℕ → RecvEvent) (r : String)
    (h : ∀ i, recv i = .message false none r) :
    ∀ fuel i, recv_loop recv i fuel = .raiseNoMatch := by
  intro fuel
  induction fuel with
  | zero => intro i; rw [recv_loop]
  | succ fuel ih =>
    intro i
    rw [recv_loop, h i]
    simp [ih (i + 1)]

/-- Claim C3 amended: an error-field response raises that message and the
command is never resent; a ConnectionClosed on send or receive triggers
exactly one reconnect and one retry whose outcome (including a second
ConnectionClosed, which propagates) is final; but a timeout awaiting a
response, or exhausting the receive budget without a matching id,
propagates immediately with no reconnect and no retry. -/
theorem send_command_retry_policy :
    ∀ t1 t2 : TryScript,
      (∀ m, try_send t1 = .raiseError m →
        send_command t1 t2 =
          { outcome := .raiseError m, reconnects := 0, sends := 1 }) ∧
      (try_send t1 = .connClosed →
        send_command t1 t2 =
          { outcome := try_send t2, reconnects := 1, sends := 2 }) ∧
      (try_send t1 = .raiseTimeout →
        send_command t1 t2 =
          { outcome := .raiseTimeout, reconnects := 0, sends := 1 }) ∧
      (try_send t1 = .raiseNoMatch →
        send_command t1 t2 =
          { outcome := .raiseNoMatch, reconnects := 0, sends := 1 }) ∧
      (∀ m r, t1.send_closed = false → t1.recv 0 = .message true (some m) r →
        send_command t1 t2 =
          { outcome := .raiseError m, reconnects := 0, sends := 1 }) ∧
      (∀ r, t1.send_closed = false → (∀ i, t1.recv i = .message false none r) →
        send_command t1 t2 =
          { outcome := .raiseNoMatch, reconnects := 0, sends := 1 }) := by
  intro t1 t2
  refine ⟨?_, ?_, ?_, ?_, ?_, ?_⟩
  · intro m h
    rw [send_command, h]
  · intro h
    rw [send_command, h]
  · intro h
    rw [send_command, h]
  · intro h
    rw [send_command, h]
  · intro m r hsend hrecv
    have hts : try_send t1 = .raiseError m := by
      rw [try_send_open t1 hsend]
      show recv_loop t1.recv 0 (9 + 1) = .raiseError m
      exact recv_loop_first_match_error t1.recv 0 9 m r hrecv
    rw [send_command, hts]
  · intro r hsend hrecv
    have hts : try_send t1 = .raiseNoMatch := by
      rw [try_send_open t1 hsend]
      exact recv_loop_never_matches t1.recv r hrecv MAX_RECV_ATTEMPTS 0
    rw [send_command, hts]

/-- Closed instance discharging the hypotheses of send_command_retry_policy:
an error response raised without resend, a closed connection retried once
with a second failure propagating, and a timeout propagating untouched. -/
theorem send_command_retry_policy_witness :
    send_command error_script ok_script =
      { outcome := .raiseError ("boom"), reconnects := 0, sends := 1 } ∧
    send_command closed_script ok_script =
      { outcome := .ok ("done"), reconnects := 1, sends := 2 } ∧
    send_command closed_script closed_script =
      { outcome := .connClosed, reconnects := 1, sends := 2 } ∧
    send_command timeout_script timeout_script =
      { outcome := .raiseTimeout, reconnects := 0, sends := 1 } := by
  have h1 := (send_command_retry_policy error_script ok_script).1 ("boom") (by decide)
  have h2 := (send_command_retry_policy closed_script ok_script).2.1 (by decide)
  have h3 := (send_command_retry_policy closed_script closed_script).2.1 (by decide)
  have h4 := (send_command_retry_policy timeout_script timeout_script).2.2.1 (by decide)
  refine ⟨h1, ?_, ?_, h4⟩
  · rw [h2]
    decide
  · rw [h3]
    decide

/-- Minimal JSON-like values for command results. -/
inductive JVal
  | null
  | str (s : String)
  | arr (xs : List JVal)
  | obj (fields : List (String × JVal))

/-- Python dict.get(key, default) on a JSON object. -/
def jget (v : JVal) (key : String) (default : JVal) : JVal :=
  match v with
  | .obj fs =>
    match fs.lookup key with
    | some x => x
    | none => default
  | _ => default

/-- The state snapshot capture_state assembles. -/
structure BrowserState where
  tabs : JVal
  active_page_info : JVal
  dom_elements : JVal
  page_text : JVal

/-- BrowserVerifier.capture_state: the tab-listing command is issued outside
any try clause, the other three sub-queries each degrade to an empty default
when they raise. -/
def capture_state (list_tabs get_page_info get_dom get_page_text :
    Except String JVal) : Except String BrowserState :=
  match list_tabs with
  | .error e => .error e
  | .ok tabs =>
    .ok { tabs := tabs,
          active_page_info :=
            match get_page_info with
            | .ok v => v
            | .error _ => .obj [],
          dom_elements :=
            match get_dom with
            | .ok v => jget v ("elements") (.arr [])
            | .error _ => .arr [],
          page_text :=
            match get_page_text with
            | .ok v => jget v ("text") (.str (""))
            | .error _ => .str ("") }

/-- Claim C9: only the three later sub-queries degrade to empty defaults on
individual failure; a failing tab-listing command makes capture_state
propagate that failure and produce no snapshot, while a successful
tab-listing always yields a snapshot whatever the other three do. -/
theorem capture_state_degrade :
    ∀ r1 r2 r3 r4 : Except String JVal,
      (∀ e, r1 = .error e → capture_state r1 r2 r3 r4 = .error e) ∧
      (∀ tabs, r1 = .ok tabs →
        ∃ st, capture_state r1 r2 r3 r4 = .ok st ∧ st.tabs = tabs ∧
          (∀ e2, r2 = .error e2 → st.active_page_info = .obj []) ∧
          (∀ e3, r3 = .error e3 → st.dom_elements = .arr []) ∧
          (∀ e4, r4 = .error e4 → st.page_text = .str ("")) ∧
          (∀ v, r2 = .ok v → st.active_page_info = v) ∧
          (∀ v, r3 = .ok v → st.dom_elements = jget v ("elements") (.arr [])) ∧
          (∀ v, r4 = .ok v → st.page_text = jget v ("text") (.str ("")))) := by
  intro r1 r2 r3 r4
  constructor
  · intro e h
    rw [h]
    rfl
  · intro tabs h
    rw [h]
    refine ⟨_, rfl, rfl, ?_, ?_, ?_, ?_, ?_, ?_⟩
    · intro e2 h2
      rw [h2]
    · intro e3 h3
      rw [h3]
    · intro e4 h4
      rw [h4]
    · intro v h2
      rw [h2]
    · intro v h3
      rw [h3]
    · intro v h4
      rw [h4]

/-- Closed instance discharging the hypotheses of capture_state_degrade: a
failing tab listing aborts the snapshot; with the tab listing succeeding,
failures of the three later sub-queries produce the empty defaults. -/
theorem capture_state_degrade_witness :
    capture_state (.error ("conn")) (.ok .null) (.ok .null) (.ok .null) =
      .error ("conn") ∧
    (∃ st, capture_state (.ok (.arr [])) (.error ("x")) (.error ("y")) (.error ("z")) =
        .ok st ∧
      st.active_page_info = .obj [] ∧ st.dom_elements = .arr [] ∧
      st.page_text = .str ("")) := by
  constructor
  · exact (capture_state_degrade (.error ("conn")) (.ok .null) (.ok .null)
      (.ok .null)).1 ("conn") rfl
  · obtain ⟨st, hst, -, hp2, hp3, hp4, -, -, -⟩ :=
      (capture_state_degrade (.ok (.arr [])) (.error ("x")) (.error ("y"))
        (.error ("z"))).2 (.arr []) rfl
    exact ⟨st, hst, hp2 ("x") rfl, hp3 ("y") rfl, hp4 ("z") rfl⟩

/-! ### Failure mining (bench/improve.py)

Strings are manipulated through their character lists so that every
operation is plain structural recursion: lower-casing models Python
str.lower (ASCII range, which covers every error string the miner
normalises), substring search models the Python in operator, and slicing
models error[:50] on code points. -/

/-- Python str.lower restricted to ASCII, the range of the error strings. -/
def lower_str (s : String) : String :=
  String.mk (s.data.map Char.toLower)

/-- Python str.replace applied to one-character arguments: spaces become
underscores. -/
def underscore_str (s : String) : String :=
  String.mk (s.data.map (fun c => if c = ' ' then '_' else c))

/-- Does the second list occur at the head of the first? -/
def starts_with : List Char → List Char → Bool
  | [], _ => true
  | _ :: _, [] => false
  | c :: cs, d :: ds => c == d && starts_with cs ds

/-- Does pat occur contiguously anywhere in the list? (Python in). -/
def has_substring (pat : List Char) : List Char → Bool
  | [] => pat.isEmpty
  | c :: rest => starts_with pat (c :: rest) || has_substring pat rest

/-- Python: pat in s. -/
def str_has (s pat : String) : Bool :=
  has_substring pat.data s.data

/-- The fixed ordered list of known error substrings of _error_signature. -/
def known_signatures : List String :=
  ["tab not found", "timed out", "timeout", "connection refused",
   "element index", "no element at", "page not loaded", "cannot access"]

/-- SelfImprover._error_signature. -/
def error_signature (error : Option String) : String :=
  match error with
  | none => "no_error"
  | some e =>
    if e = "" then "no_error"
    else
      let sig := lower_str e
      match known_signatures.find? (fun pat => str_has sig pat) with
      | some pat => underscore_str pat
      | none => String.mk (sig.data.take 50)

/-- The RunResult fields read by the failure miner and report generator. -/
structure RunResult where
  scenario_id : String
  scenario_name : String
  category : String
  passed : Bool
  total_cost_usd : Option ℚ
  duration_ms : ℤ
  tool_call_count : ℕ
  verification_results : List (String × Bool)
  error : Option String
  failure_category : Option String
  deriving Repr, DecidableEq

/-- The grouping key of analyze_failures: failure category (or unknown when
falsy) joined with the normalised error signature. -/
def result_key (r : RunResult) : String :=
  (match r.failure_category with
   | none => "unknown"
   | some c => if c = "" then "unknown" else c) ++ ":" ++ error_signature r.error

/-- A recurring failure pattern. -/
structure FailurePattern where
  pattern_name : String
  frequency : ℕ
  affected_scenarios : List String
  example_errors : List String
  root_cause_hypothesis : String
  deriving Repr, DecidableEq

/-- The per-result update of the patterns dict (insertion-ordered, as a
Python dict is). -/
def update_patterns : List (String × FailurePattern) → String → RunResult →
    List (String × FailurePattern)
  | [], key, r =>
    [(key, { pattern_name := key, frequency := 1,
             affected_scenarios := [r.scenario_id],
             example_errors := [(r.error).getD ("")],
             root_cause_hypothesis := "" })]
  | (k, p) :: rest, key, r =>
    if k = key then
      (k, { p with
            frequency := p.frequency + 1,
            affected_scenarios := p.affected_scenarios ++ [r.scenario_id],
            example_errors :=
              if p.example_errors.length < 3 then
                p.example_errors ++ [(r.error).getD ("")]
              else p.example_errors }) :: rest
    else (k, p) :: update_patterns rest key r

/-- One iteration of the analyze_failures loop: passing results contribute
nothing. -/
def add_result (ps : List (String × FailurePattern)) (r : RunResult) :
    List (String × FailurePattern) :=
  if r.passed then ps else update_patterns ps (result_key r) r

/-- SelfImprover._hypothesize (keyword rules over the pattern key). -/
def hypothesize (p : FailurePattern) : String :=
  let name := p.pattern_name
  if str_has name ("timeout") || str_has name ("timed_out") then
    "Pages loading slowly or WebSocket responses timing out. " ++
      "Consider increasing timeouts or adding wait_for_load."
  else if str_has name ("connection_refused") then
    "Browser WebSocket server not running or port conflict. " ++
      "Check that Zen Browser is open and zenleap_agent.uc.js is loaded."
  else if str_has name ("element_index") || str_has name ("no_element") then
    "DOM changed between get_dom and click. " ++
      "Agent should re-query DOM before interacting."
  else if str_has name ("verification_failure") then
    "Agent completed without errors but browser state does not match. " ++
      "May need better prompting or additional verification steps."
  else if str_has name ("page_not_loaded") || str_has name ("cannot_access") then
    "Page content not accessible - may be about:blank, " ++
      "privileged page, or still loading."
  else "Unknown pattern - manual investigation needed."

/-- Comparator of the final sorted call: frequency descending, stable. -/
def freq_desc (a b : FailurePattern) : Bool :=
  decide (b.frequency ≤ a.frequency)

/-- SelfImprover.analyze_failures. -/
def analyze_failures (results : List RunResult) : List FailurePattern :=
  let ps := results.foldl add_result []
  let ps := ps.map (fun kp =>
    (kp.1, { kp.2 with root_cause_hypothesis := hypothesize kp.2 }))
  sort_by freq_desc (ps.map (fun kp => kp.2))

/-- A concrete improvement task. -/
structure ImprovementTask where
  id : String
  title : String
  description : String
  category : String
  priority : String
  related_scenarios : List String
  suggested_changes : List String
  estimated_impact : String
  deriving Repr, DecidableEq

/-- SelfImprover._task_title. -/
def task_title (p : FailurePattern) : String :=
  let name := p.pattern_name
  if str_has name ("timeout") || str_has name ("timed_out") then
    "Increase timeout handling and add wait strategies"
  else if str_has name ("element") then
    "Improve DOM interaction reliability"
  else if str_has name ("verification") then
    "Improve agent prompting for scenario completion"
  else if str_has name ("connection") then
    "Improve WebSocket connection resilience"
  else "Fix: " ++ p.pattern_name

/-- SelfImprover._task_category. -/
def task_category (p : FailurePattern) : String :=
  let name := p.pattern_name
  if str_has name ("timeout") || str_has name ("timed_out") ||
      str_has name ("connection") then
    "test_infra"
  else if str_has name ("element") then "browser_agent"
  else if str_has name ("verification") then "prompt_engineering"
  else "mcp_server"

/-- SelfImprover._suggest_changes. -/
def suggest_changes (p : FailurePattern) : List String :=
  let name := p.pattern_name
  if str_has name ("timeout") || str_has name ("timed_out") then
    ["Add wait_for_load after every navigate",
     "Increase browser_command timeout from 30s to 45s",
     "Add retry logic in the MCP server for transient failures"]
  else if str_has name ("element") then
    ["Instruct agent to always call get_dom immediately before clicking",
     "Add element staleness detection with auto-recovery",
     "Consider adding a click_by_text tool that combines get_dom + click"]
  else if str_has name ("verification") then
    ["Improve scenario prompts to be more specific about expected outcomes",
     "Add intermediate verification steps in multi-step scenarios",
     "Use append_system_prompt to add verification instructions"]
  else if str_has name ("connection") then
    ["Add WebSocket reconnection logic in the MCP server",
     "Ensure browser is running before starting benchmarks",
     "Add health check command before each scenario"]
  else ["Manual investigation required"]

/-- SelfImprover._task_description. -/
def task_description (p : FailurePattern) : String :=
  "Pattern: " ++ p.pattern_name ++ "\n" ++
  "Frequency: " ++ toString p.frequency ++ " occurrences\n" ++
  "Affected scenarios: " ++ String.intercalate (", ") p.affected_scenarios ++ "\n" ++
  "Hypothesis: " ++ p.root_cause_hypothesis ++ "\n" ++
  "Example errors:\n" ++
  String.intercalate ("\n") (p.example_errors.map (fun e => "  - " ++ e))

/-- The 03d format of the task id counter. -/
def pad3 (n : ℕ) : String :=
  let s := toString n
  if s.length < 3 then String.mk (List.replicate (3 - s.length) '0') ++ s else s

/-- The task built for the pattern at enumeration index i. -/
def mk_task (i : ℕ) (p : FailurePattern) : ImprovementTask :=
  { id := "imp-" ++ pad3 (i + 1),
    title := task_title p,
    description := task_description p,
    category := task_category p,
    priority :=
      if p.frequency ≥ 3 then "critical"
      else if p.frequency ≥ 2 then "high"
      else "medium",
    related_scenarios := p.affected_scenarios,
    suggested_changes := suggest_changes p,
    estimated_impact :=
      "Would fix " ++ toString p.frequency ++ " failing scenario(s)" }

/-- SelfImprover.generate_tasks: enumerate all patterns (indices advance
past skipped zero-frequency ones, as Python enumerate does) and emit one
task per non-zero-frequency pattern. -/
def generate_tasks (patterns : List FailurePattern) : List ImprovementTask :=
  (patterns.enum).filterMap (fun ip =>
    if ip.2.frequency = 0 then none else some (mk_task ip.1 ip.2))

/-- Lookup in the insertion-ordered pattern dict. -/
def find_pattern : List (String × FailurePattern) → String → Option FailurePattern
  | [], _ => none
  | (k', p) :: rest, k => if k' = k then some p else find_pattern rest k

/-- Frequency stored under a key (0 when absent). -/
def assoc_freq (ps : List (String × FailurePattern)) (k : String) : ℕ :=
  match find_pattern ps k with
  | some p => p.frequency
  | none => 0

lemma update_patterns_freq (key : String) (r : RunResult) :
    ∀ ps k, assoc_freq (update_patterns ps key r) k =
      assoc_freq ps k + (if k = key then 1 else 0) := by
  intro ps
  induction ps with
  | nil =>
    intro k
    by_cases h : k = key
    · subst h
      simp [update_patterns, assoc_freq, find_pattern]
    · simp [update_patterns, assoc_freq, find_pattern, Ne.symm h, h]
  | cons hd rest ih =>
    obtain ⟨k', p⟩ := hd
    intro k
    by_cases hk : k' = key
    · subst hk
      rw [update_patterns, if_pos rfl]
      by_cases hk2 : k' = k
      · subst hk2
        simp [assoc_freq, find_pattern]
      · simp [assoc_freq, find_pattern, hk2, Ne.symm hk2]
    · rw [update_patterns, if_neg hk]
      by_cases hk2 : k' = k
      · subst hk2
        simp [assoc_freq, find_pattern, hk]
      · simp only [assoc_freq, find_pattern, if_neg hk2]
        exact ih k

lemma update_patterns_names (key : String) (r : RunResult) :
    ∀ ps, (∀ kp ∈ ps, (kp.2 : FailurePattern).pattern_name = kp.1) →
      ∀ kp ∈ update_patterns ps key r, (kp.2 : FailurePattern).pattern_name = kp.1 := by
  intro ps
  induction ps with
  | nil =>
    intro _ kp hkp
    rw [update_patterns] at hkp
    rcases List.mem_singleton.mp hkp with rfl
    rfl
  | cons hd rest ih =>
    obtain ⟨k', p⟩ := hd
    intro hnames kp hkp
    by_cases hk : k' = key
    · rw [update_patterns, if_pos hk] at hkp
      rcases List.mem_cons.mp hkp with rfl | hkp
      · exact hnames (k', p) (List.mem_cons_self _ _)
      · exact hnames kp (List.mem_cons_of_mem _ hkp)
    · rw [update_patterns, if_neg hk] at hkp
      rcases List.mem_cons.mp hkp with rfl | hkp
      · exact hnames (k', p) (List.mem_cons_self _ _)
      · exact ih (fun q hq => hnames q (List.mem_cons_of_mem _ hq)) kp hkp

lemma update_patterns_keys (key : String) (r : RunResult) :
    ∀ ps, (update_patterns ps key r).map Prod.fst = ps.map Prod.fst ∨
      (update_patterns ps key r).map Prod.fst = ps.map Prod.fst ++ [key] := by
  intro ps
  induction ps with
  | nil =>
    right
    rw [update_patterns]
    rfl
  | cons hd rest ih =>
    obtain ⟨k', p⟩ := hd
    by_cases hk : k' = key
    · left
      rw [update_patterns, if_pos hk]
      rfl
    · rw [update_patterns, if_neg hk]
      rcases ih with h | h
      · left
        simp [h]
      · right
        simp [h]

lemma update_patterns_nodup (key : String) (r : RunResult) :
    ∀ ps, ((ps.map Prod.fst : List String)).Nodup →
      ((update_patterns ps key r).map Prod.fst).Nodup := by
  intro ps
  induction ps with
  | nil =>
    intro _
    rw [update_patterns]
    simp
  | cons hd rest ih =>
    obtain ⟨k', p⟩ := hd
    intro hnd
    rw [List.map_cons] at hnd
    rcases List.nodup_cons.mp hnd with ⟨hk'nin, hrest⟩
    by_cases hk : k' = key
    · rw [update_patterns, if_pos hk]
      rw [List.map_cons]
      exact List.nodup_cons.mpr ⟨hk'nin, hrest⟩
    · rw [update_patterns, if_neg hk]
      rw [List.map_cons, List.nodup_cons]
      refine ⟨?_, ih hrest⟩
      intro hmem
      rcases update_patterns_keys key r rest with h | h
      · rw [h] at hmem
        exact hk'nin hmem
      · rw [h] at hmem
        rcases List.mem_append.mp hmem with hmem | hmem
        · exact hk'nin hmem
        · exact hk (List.mem_singleton.mp hmem)

lemma find_pattern_of_mem :
    ∀ ps : List (String × FailurePattern), ((ps.map Prod.fst : List String)).Nodup →
      ∀ k p, (k, p) ∈ ps → find_pattern ps k = some p := by
  intro ps
  induction ps with
  | nil =>
    intro _ k p hmem
    exact absurd hmem (List.not_mem_nil _)
  | cons hd rest ih =>
    obtain ⟨k', p'⟩ := hd
    intro hnd k p hmem
    rw [List.map_cons] at hnd
    rcases List.nodup_cons.mp hnd with ⟨hk'nin, hrest⟩
    rcases List.mem_cons.mp hmem with heq | hmem
    · injection heq with h1 h2
      subst h1
      subst h2
      rw [find_pattern, if_pos rfl]
    · have hmemk : k ∈ rest.map Prod.fst := by
        have := List.mem_map_of_mem Prod.fst hmem
        simpa using this
      have hkne : ¬(k' = k) := by
        intro hkk
        exact hk'nin (by rw [hkk]; exact hmemk)
      rw [find_pattern, if_neg hkne]
      exact ih hrest k p hmem

lemma mem_of_find_pattern :
    ∀ (ps : List (String × FailurePattern)) k p,
      find_pattern ps k = some p → (k, p) ∈ ps := by
  intro ps
  induction ps with
  | nil =>
    intro k p h
    rw [find_pattern] at h
    exact absurd h (by simp)
  | cons hd rest ih =>
    obtain ⟨k', p'⟩ := hd
    intro k p h
    rw [find_pattern] at h
    by_cases hk : k' = k
    · rw [if_pos hk] at h
      injection h with h2
      subst h2
      subst hk
      exact List.mem_cons_self _ _
    · rw [if_neg hk] at h
      exact List.mem_cons_of_mem _ (ih k p h)

lemma foldl_add_result_freq :
    ∀ (results : List RunResult) (ps : List (String × FailurePattern)) (k : String),
      assoc_freq (results.foldl add_result ps) k =
        assoc_freq ps k +
          results.countP (fun r => !r.passed && (result_key r == k)) := by
  intro results
  induction results with
  | nil =>
    intro ps k
    simp
  | cons r rest ih =>
    intro ps k
    rw [List.foldl_cons, List.countP_cons, ih]
    by_cases hp : r.passed
    · rw [add_result, if_pos hp]
      simp [hp]
    · rw [add_result, if_neg hp, update_patterns_freq]
      have hpred : (!r.passed && (result_key r == k)) =
          (result_key r == k) := by
        simp [hp]
      rw [hpred]
      by_cases hkey : k = result_key r
      · subst hkey
        simp
        omega
      · have : (result_key r == k) = false := by
          simp
          intro hc
          exact hkey hc.symm
        rw [this, if_neg hkey]
        simp

lemma foldl_add_result_names :
    ∀ (results : List RunResult) ps,
      (∀ kp ∈ ps, (kp.2 : FailurePattern).pattern_name = kp.1) →
      ∀ kp ∈ results.foldl add_result ps,
        (kp.2 : FailurePattern).pattern_name = kp.1 := by
  intro results
  induction results with
  | nil =>
    intro ps h kp hkp
    exact h kp hkp
  | cons r rest ih =>
    intro ps h kp hkp
    rw [List.foldl_cons] at hkp
    by_cases hp : r.passed
    · rw [add_result, if_pos hp] at hkp
      exact ih ps h kp hkp
    · rw [add_result, if_neg hp] at hkp
      exact ih _ (update_patterns_names (result_key r) r ps h) kp hkp

lemma foldl_add_result_nodup :
    ∀ (results : List RunResult) ps,
      ((ps.map Prod.fst : List String)).Nodup →
      (((results.foldl add_result ps).map Prod.fst : List String)).Nodup := by
  intro results
  induction results with
  | nil =>
    intro ps h
    exact h
  | cons r rest ih =>
    intro ps h
    rw [List.foldl_cons]
    by_cases hp : r.passed
    · rw [add_result, if_pos hp]
      exact ih ps h
    · rw [add_result, if_neg hp]
      exact ih _ (update_patterns_nodup (result_key r) r ps h)

lemma foldl_add_result_skips_passed :
    ∀ (results : List RunResult) ps,
      results.foldl add_result ps =
        (results.filter (fun r => !r.passed)).foldl add_result ps := by
  intro results
  induction results with
  | nil =>
    intro ps
    rfl
  | cons r rest ih =>
    intro ps
    rw [List.foldl_cons]
    by_cases hp : r.passed
    · rw [add_result, if_pos hp, List.filter_cons]
      have : (!r.passed) = false := by simp [hp]
      rw [this]
      exact ih ps
    · rw [List.filter_cons]
      have hbt : (!r.passed) = true := by simp [hp]
      rw [hbt, if_pos rfl, List.foldl_cons]
      exact ih _

lemma freq_desc_trans : ∀ a b c : FailurePattern,
    freq_desc a b = true → freq_desc b c = true → freq_desc a c = true := by
  intro a b c hab hbc
  simp only [freq_desc, decide_eq_true_eq] at *
  omega

lemma freq_desc_total : ∀ a b : FailurePattern,
    (freq_desc a b || freq_desc b a) = true := by
  intro a b
  simp only [freq_desc, Bool.or_eq_true, decide_eq_true_eq]
  omega

lemma analyze_failures_mem_source :
    ∀ (results : List RunResult) (p : FailurePattern),
      p ∈ analyze_failures results →
      ∃ k q, (k, q) ∈ results.foldl add_result [] ∧
        p = { q with root_cause_hypothesis := hypothesize q } := by
  intro results p hp
  have hp2 : p ∈ ((results.foldl add_result []).map (fun kp =>
      (kp.1, { kp.2 with root_cause_hypothesis := hypothesize kp.2 }))).map
      (fun kp => kp.2) :=
    (sort_by_perm freq_desc _).mem_iff.mp hp
  rw [List.map_map] at hp2
  rcases List.mem_map.mp hp2 with ⟨⟨k, q⟩, hmem, hq⟩
  exact ⟨k, q, hmem, hq.symm⟩

lemma update_patterns_freq_pos (key : String) (r : RunResult) :
    ∀ ps, (∀ kp ∈ ps, 1 ≤ (kp.2 : FailurePattern).frequency) →
      ∀ kp ∈ update_patterns ps key r, 1 ≤ (kp.2 : FailurePattern).frequency := by
  intro ps
  induction ps with
  | nil =>
    intro _ kp hkp
    rw [update_patterns] at hkp
    rcases List.mem_singleton.mp hkp with rfl
    exact le_refl 1
  | cons hd rest ih =>
    obtain ⟨k', p⟩ := hd
    intro hpos kp hkp
    by_cases hk : k' = key
    · rw [update_patterns, if_pos hk] at hkp
      rcases List.mem_cons.mp hkp with rfl | hkp
      · have := hpos (k', p) (List.mem_cons_self _ _)
        simp only at this ⊢
        omega
      · exact hpos kp (List.mem_cons_of_mem _ hkp)
    · rw [update_patterns, if_neg hk] at hkp
      rcases List.mem_cons.mp hkp with rfl | hkp
      · exact hpos (k', p) (List.mem_cons_self _ _)
      · exact ih (fun q hq => hpos q (List.mem_cons_of_mem _ hq)) kp hkp

lemma foldl_add_result_freq_pos :
    ∀ (results : List RunResult) ps,
      (∀ kp ∈ ps, 1 ≤ (kp.2 : FailurePattern).frequency) →
      ∀ kp ∈ results.foldl add_result ps,
        1 ≤ (kp.2 : FailurePattern).frequency := by
  intro results
  induction results with
  | nil =>
    intro ps h kp hkp
    exact h kp hkp
  | cons r rest ih =>
    intro ps h kp hkp
    rw [List.foldl_cons] at hkp
    by_cases hp : r.passed
    · rw [add_result, if_pos hp] at hkp
      exact ih ps h kp hkp
    · rw [add_result, if_neg hp] at hkp
      exact ih _ (update_patterns_freq_pos (result_key r) r ps h) kp hkp

/-- Claim C6: the error signature is the no_error marker for missing error
text, else the first entry of the fixed ordered substring list occurring in
the lower-cased error with spaces underscored, else the first 50 characters
of the lower-cased error; analyze_failures groups failed results under
failure_category : signature keys (passing results contribute nothing, keys
never collide) and sorts patterns by descending frequency, each pattern
counting exactly the failed results with its key. -/
theorem analyze_failures_spec :
    (error_signature none = "no_error" ∧
      error_signature (some ("")) = "no_error") ∧
    (∀ e pat, ¬(e = "") →
      known_signatures.find? (fun q => str_has (lower_str e) q) = some pat →
      error_signature (some e) = underscore_str pat) ∧
    (∀ e, ¬(e = "") →
      known_signatures.find? (fun q => str_has (lower_str e) q) = none →
      error_signature (some e) = String.mk ((lower_str e).data.take 50)) ∧
    (∀ results, analyze_failures results =
      analyze_failures (results.filter (fun r => !r.passed))) ∧
    (∀ results, (analyze_failures results).Pairwise
      (fun a b => b.frequency ≤ a.frequency)) ∧
    (∀ results, ((analyze_failures results).map
      (fun p => p.pattern_name)).Nodup) ∧
    (∀ results p, p ∈ analyze_failures results →
      p.frequency = results.countP
        (fun r => !r.passed && (result_key r == p.pattern_name)) ∧
      1 ≤ p.frequency) := by
  refine ⟨⟨rfl, rfl⟩, ?_, ?_, ?_, ?_, ?_, ?_⟩
  · intro e pat hne hfind
    have hunfold : error_signature (some e) =
        (if e = "" then "no_error"
         else match known_signatures.find? (fun q => str_has (lower_str e) q) with
           | some q => underscore_str q
           | none => String.mk ((lower_str e).data.take 50)) := rfl
    rw [hunfold, if_neg hne, hfind]
  · intro e hne hfind
    have hunfold : error_signature (some e) =
        (if e = "" then "no_error"
         else match known_signatures.find? (fun q => str_has (lower_str e) q) with
           | some q => underscore_str q
           | none => String.mk ((lower_str e).data.take 50)) := rfl
    rw [hunfold, if_neg hne, hfind]
  · intro results
    simp only [analyze_failures]
    rw [foldl_add_result_skips_passed results []]
  · intro results
    have h := sort_by_pairwise freq_desc freq_desc_trans freq_desc_total
      (((results.foldl add_result []).map (fun kp =>
        (kp.1, { kp.2 with root_cause_hypothesis := hypothesize kp.2 }))).map
        (fun kp => kp.2))
    refine h.imp ?_
    intro a b hab
    simpa [freq_desc] using hab
  · intro results
    have hnames := foldl_add_result_names results []
      (fun kp h => absurd h (List.not_mem_nil _))
    have hnodup := foldl_add_result_nodup results [] (by simp)
    have hperm := ((sort_by_perm freq_desc
      (((results.foldl add_result []).map (fun kp =>
        (kp.1, { kp.2 with root_cause_hypothesis := hypothesize kp.2 }))).map
        (fun kp => kp.2)))).map (fun p => p.pattern_name)
    refine (hperm.nodup_iff).mpr ?_
    rw [List.map_map, List.map_map]
    have heq : ∀ kp ∈ results.foldl add_result [],
        (((fun p : FailurePattern => p.pattern_name) ∘ fun kp => kp.2) ∘ fun kp =>
          (kp.1, { kp.2 with root_cause_hypothesis := hypothesize kp.2 })) kp =
          Prod.fst kp :=
      fun kp hkp => hnames kp hkp
    rw [List.map_congr_left heq]
    exact hnodup
  · intro results p hp
    obtain ⟨k, q, hmem, hpq⟩ := analyze_failures_mem_source results p hp
    have hnames := foldl_add_result_names results []
      (fun kp h => absurd h (List.not_mem_nil _)) (k, q) hmem
    have hnodup := foldl_add_result_nodup results [] (by simp)
    have hfind := find_pattern_of_mem _ hnodup k q hmem
    have hfreq : assoc_freq (results.foldl add_result []) k = q.frequency := by
      rw [assoc_freq, hfind]
    have hcount := foldl_add_result_freq results [] k
    have hqc : q.frequency = results.countP
        (fun r => !r.passed && (result_key r == k)) := by
      rw [← hfreq, hcount]
      simp [assoc_freq, find_pattern]
    have hpn : p.pattern_name = k := by
      rw [hpq]
      exact hnames
    have hpf : p.frequency = q.frequency := by rw [hpq]
    have hpos := foldl_add_result_freq_pos results []
      (fun kp h => absurd h (List.not_mem_nil _)) (k, q) hmem
    constructor
    · rw [hpn, hpf, hqc]
    · rw [hpf]
      exact hpos

/-- A failed run with error Connection refused and category infrastructure. -/
def conn_refused_result (sid : String) : RunResult :=
  { scenario_id := sid, scenario_name := "", category := "", passed := false,
    total_cost_usd := none, duration_ms := 0, tool_call_count := 0,
    verification_results := [], error := some ("Connection refused"),
    failure_category := some ("infrastructure") }

/-- Three results of the C7 example batch. -/
def conn_example : List RunResult :=
  [conn_refused_result ("s1"), conn_refused_result ("s2"),
   conn_refused_result ("s3")]

/-- The single pattern the C7 example batch produces. -/
def conn_pattern : FailurePattern :=
  { pattern_name := "infrastructure:connection_refused",
    frequency := 3,
    affected_scenarios := ["s1", "s2", "s3"],
    example_errors :=
      ["Connection refused", "Connection refused", "Connection refused"],
    root_cause_hypothesis := hypothesize
      { pattern_name := "infrastructure:connection_refused", frequency := 3,
        affected_scenarios := ["s1", "s2", "s3"],
        example_errors :=
          ["Connection refused", "Connection refused", "Connection refused"],
        root_cause_hypothesis := "" } }

/-- A failed run with no error text and category agent_error. -/
def agent_error_result (sid : String) : RunResult :=
  { scenario_id := sid, scenario_name := "", category := "", passed := false,
    total_cost_usd := none, duration_ms := 0, tool_call_count := 0,
    verification_results := [], error := none,
    failure_category := some ("agent_error") }

/-- Two failed results with distinct category/signature keys. -/
def two_distinct_example : List RunResult :=
  [agent_error_result ("s1"), conn_refused_result ("s2")]

/-- Closed instance discharging the hypotheses of analyze_failures_spec: the
matched-substring and fallback branches of the signature, and the frequency
count of the pattern mined from the example batch. -/
theorem analyze_failures_spec_witness :
    error_signature (some ("Connection refused")) =
      underscore_str ("connection refused") ∧
    error_signature (some ("weird failure")) =
      String.mk ((lower_str ("weird failure")).data.take 50) ∧
    (conn_pattern.frequency = conn_example.countP
        (fun r => !r.passed && (result_key r == conn_pattern.pattern_name)) ∧
      1 ≤ conn_pattern.frequency) := by
  refine ⟨?_, ?_, ?_⟩
  · exact analyze_failures_spec.2.1 ("Connection refused")
      ("connection refused") (by decide) (by decide)
  · exact analyze_failures_spec.2.2.1 ("weird failure") (by decide) (by decide)
  · exact analyze_failures_spec.2.2.2.2.2.2 conn_example conn_pattern (by decide)

lemma generate_tasks_core :
    ∀ (l : List FailurePattern) (i : ℕ),
      ((List.enumFrom i l).filterMap (fun ip =>
        if ip.2.frequency = 0 then none else some (mk_task ip.1 ip.2))).length =
        (l.filter (fun p => p.frequency != 0)).length ∧
      (∀ t ∈ (List.enumFrom i l).filterMap (fun ip =>
          if ip.2.frequency = 0 then none else some (mk_task ip.1 ip.2)),
        ∃ j p, p ∈ l ∧ ¬(p.frequency = 0) ∧ t = mk_task j p) := by
  intro l
  induction l with
  | nil =>
    intro i
    exact ⟨rfl, fun t ht => absurd ht (List.not_mem_nil _)⟩
  | cons p rest ih =>
    intro i
    rw [List.enumFrom_cons, List.filterMap_cons, List.filter_cons]
    by_cases hz : p.frequency = 0
    · have hbne : (p.frequency != 0) = false := by simp [hz]
      rw [if_pos hz, hbne]
      simp only [Bool.false_eq_true, if_false]
      refine ⟨(ih (i + 1)).1, ?_⟩
      intro t ht
      obtain ⟨j, q, hq, hqz, htq⟩ := (ih (i + 1)).2 t ht
      exact ⟨j, q, List.mem_cons_of_mem _ hq, hqz, htq⟩
    · have hbne : (p.frequency != 0) = true := by simp [hz]
      rw [if_neg hz, hbne]
      simp only [if_true]
      refine ⟨?_, ?_⟩
      · rw [List.length_cons, List.length_cons, (ih (i + 1)).1]
      · intro t ht
        rcases List.mem_cons.mp ht with rfl | ht
        · exact ⟨i, p, List.mem_cons_self _ _, hz, rfl⟩
        · obtain ⟨j, q, hq, hqz, htq⟩ := (ih (i + 1)).2 t ht
          exact ⟨j, q, List.mem_cons_of_mem _ hq, hqz, htq⟩

set_option maxRecDepth 8192 in
/-- Claim C7: generate_tasks emits exactly one task per non-zero-frequency
pattern (so k distinct keys give k tasks), task priority is critical at
frequency at least 3, high at 2, medium otherwise; the three
Connection-refused infrastructure failures yield one pattern of frequency 3
and one critical test_infra task, and two failures with distinct keys yield
two tasks. -/
theorem generate_tasks_spec :
    (∀ patterns, (generate_tasks patterns).length =
      (patterns.filter (fun p => p.frequency != 0)).length) ∧
    (∀ patterns, (∀ p ∈ patterns, ¬(p.frequency = 0)) →
      (generate_tasks patterns).length = patterns.length) ∧
    (∀ patterns t, t ∈ generate_tasks patterns →
      ∃ p, p ∈ patterns ∧ ¬(p.frequency = 0) ∧
        (3 ≤ p.frequency → t.priority = "critical") ∧
        (p.frequency = 2 → t.priority = "high") ∧
        (p.frequency = 1 → t.priority = "medium") ∧
        t.category = task_category p) ∧
    ((analyze_failures conn_example).map (fun p => p.pattern_name) =
        ["infrastructure:connection_refused"] ∧
      (analyze_failures conn_example).map (fun p => p.frequency) = [3] ∧
      (generate_tasks (analyze_failures conn_example)).map
        (fun t => t.priority) = ["critical"] ∧
      (generate_tasks (analyze_failures conn_example)).map
        (fun t => t.category) = ["test_infra"]) ∧
    ((analyze_failures two_distinct_example).length = 2 ∧
      (generate_tasks (analyze_failures two_distinct_example)).length = 2) := by
  refine ⟨?_, ?_, ?_, ⟨by decide, by decide, by decide, by decide⟩,
    ⟨by decide, by decide⟩⟩
  · intro patterns
    exact (generate_tasks_core patterns 0).1
  · intro patterns hall
    have hlen : (generate_tasks patterns).length =
        (patterns.filter (fun p => p.frequency != 0)).length :=
      (generate_tasks_core patterns 0).1
    rw [hlen]
    have : patterns.filter (fun p => p.frequency != 0) = patterns := by
      rw [List.filter_eq_self]
      intro p hp
      simp [hall p hp]
    rw [this]
  · intro patterns t ht
    obtain ⟨j, p, hp, hz, htp⟩ := (generate_tasks_core patterns 0).2 t ht
    refine ⟨p, hp, hz, ?_, ?_, ?_, ?_⟩
    · intro h3
      rw [htp]
      simp only [mk_task]
      rw [if_pos h3]
    · intro h2
      rw [htp]
      simp only [mk_task]
      rw [if_neg (by omega), if_pos (by omega)]
    · intro h1
      rw [htp]
      simp only [mk_task]
      rw [if_neg (by omega), if_neg (by omega)]
    · rw [htp]
      rfl

set_option maxRecDepth 8192 in
/-- Closed instance discharging the hypotheses of generate_tasks_spec: the
two-pattern batch with all frequencies non-zero gives exactly as many tasks
as patterns, and the task of the Connection-refused batch is critical with
category test_infra. -/
theorem generate_tasks_spec_witness :
    (generate_tasks (analyze_failures two_distinct_example)).length =
      (analyze_failures two_distinct_example).length ∧
    (∃ p, p ∈ analyze_failures conn_example ∧ ¬(p.frequency = 0) ∧
      (3 ≤ p.frequency → (mk_task 0 conn_pattern).priority = "critical") ∧
      (p.frequency = 2 → (mk_task 0 conn_pattern).priority = "high") ∧
      (p.frequency = 1 → (mk_task 0 conn_pattern).priority = "medium") ∧
      (mk_task 0 conn_pattern).category = task_category p) := by
  constructor
  · exact generate_tasks_spec.2.1 (analyze_failures two_distinct_example)
      (by decide)
  · exact generate_tasks_spec.2.2.1 (analyze_failures conn_example)
      (mk_task 0 conn_pattern) (by decide)

/-! ### Report generation (bench/report.py) -/

/-- Per-category accumulator of ReportGenerator.generate. -/
structure CatStats where
  total : ℕ
  passed : ℕ
  cost : ℚ
  duration : ℤ
  deriving Repr, DecidableEq

/-- One iteration of the by_category grouping loop (insertion-ordered
dict). -/
def bump_cat : List (String × CatStats) → RunResult → List (String × CatStats)
  | [], r =>
    [(r.category, { total := 1, passed := if r.passed then 1 else 0,
                    cost := (r.total_cost_usd).getD 0,
                    duration := r.duration_ms })]
  | (c, s) :: rest, r =>
    if c = r.category then
      (c, { total := s.total + 1,
            passed := s.passed + (if r.passed then 1 else 0),
            cost := s.cost + (r.total_cost_usd).getD 0,
            duration := s.duration + r.duration_ms }) :: rest
    else (c, s) :: bump_cat rest r

/-- One entry of the failures list. -/
structure FailureEntry where
  scenario_id : String
  scenario_name : String
  category : Option String
  error : Option String
  verification_results : List (String × Bool)
  tool_call_count : ℕ
  deriving Repr, DecidableEq

/-- The failures-list entry built from one failed result (the category key
holds the failure category, as in the source dict). -/
def mk_failure (r : RunResult) : FailureEntry :=
  { scenario_id := r.scenario_id, scenario_name := r.scenario_name,
    category := r.failure_category, error := r.error,
    verification_results := r.verification_results,
    tool_call_count := r.tool_call_count }

/-- One entry of the regressions list. -/
structure RegressionEntry where
  scenario_id : String
  historical_pass_rate : ℚ
  error : Option String
  deriving Repr, DecidableEq

/-- The regression entry built from one failed result, carrying the
historical pass rate read from the metrics store (last 10 runs, the
default argument of get_pass_rate). -/
def mk_regression (db : List RunRow) (r : RunResult) : RegressionEntry :=
  { scenario_id := r.scenario_id,
    historical_pass_rate := get_pass_rate db r.scenario_id 10,
    error := r.error }

/-- The derived suite report. -/
structure SuiteReport where
  suite_name : String
  total : ℕ
  passed : ℕ
  failed : ℕ
  pass_rate : ℚ
  total_cost_usd : ℚ
  total_duration_ms : ℤ
  avg_cost_per_scenario : ℚ
  avg_duration_per_scenario : ℚ
  by_category : List (String × CatStats)
  failures : List FailureEntry
  regressions : List RegressionEntry

/-- ReportGenerator.generate over a metrics store and a result batch. -/
def generate (db : List RunRow) (results : List RunResult)
    (suite_name : String) : SuiteReport :=
  let total := results.length
  let passed := results.countP (fun r => r.passed)
  let failed := total - passed
  let total_cost := (results.map (fun r => (r.total_cost_usd).getD 0)).sum
  let total_duration := (results.map (fun r => r.duration_ms)).sum
  let by_category := results.foldl bump_cat []
  let failures := (results.filter (fun r => !r.passed)).map mk_failure
  let regressions := results.foldl (fun acc r =>
    if !r.passed then
      (if get_pass_rate db r.scenario_id 10 > 7/10 then
        acc ++ [mk_regression db r]
      else acc)
    else acc) []
  { suite_name := suite_name, total := total, passed := passed,
    failed := failed,
    pass_rate := if total > 0 then (passed : ℚ) / (total : ℚ) else 0,
    total_cost_usd := total_cost, total_duration_ms := total_duration,
    avg_cost_per_scenario :=
      if total > 0 then total_cost / (total : ℚ) else 0,
    avg_duration_per_scenario :=
      if total > 0 then (total_duration : ℚ) / (total : ℚ) else 0,
    by_category := by_category, failures := failures,
    regressions := regressions }

/-- The membership test of the regressions loop. -/
def regression_pred (db : List RunRow) (r : RunResult) : Bool :=
  !r.passed && decide (get_pass_rate db r.scenario_id 10 > 7/10)

lemma regressions_foldl (db : List RunRow) :
    ∀ (results : List RunResult) (acc : List RegressionEntry),
      results.foldl (fun acc r =>
        if !r.passed then
          (if get_pass_rate db r.scenario_id 10 > 7/10 then
            acc ++ [mk_regression db r]
          else acc)
        else acc) acc =
      acc ++ (results.filter (regression_pred db)).map (mk_regression db) := by
  intro results
  induction results with
  | nil =>
    intro acc
    simp
  | cons r rest ih =>
    intro acc
    rw [List.foldl_cons, List.filter_cons]
    by_cases hp : r.passed = true
    · have h1 : (!r.passed) = false := by simp [hp]
      have h2 : regression_pred db r = false := by
        simp [regression_pred, hp]
      rw [h1, h2]
      simp only [Bool.false_eq_true, if_false]
      exact ih acc
    · have hp' : r.passed = false := by simpa using hp
      have h1 : (!r.passed) = true := by simp [hp']
      rw [h1, if_pos rfl]
      by_cases hr : get_pass_rate db r.scenario_id 10 > 7/10
      · have h2 : regression_pred db r = true := by
          simp [regression_pred, hp', hr]
        rw [if_pos hr, h2, if_pos rfl, List.map_cons, ih]
        simp
      · have h2 : regression_pred db r = false := by
          simp [regression_pred, hp', hr]
        rw [if_neg hr, h2]
        simp only [Bool.false_eq_true, if_false]
        exact ih acc

/-- Claim C8: a result is listed in SuiteReport.regressions exactly when it
failed and its scenario's historical pass rate from the metrics store
exceeds 0.7; failed results at or below the threshold and all passing
results are excluded. -/
theorem generate_regressions_spec :
    ∀ (db : List RunRow) (results : List RunResult) (suite_name : String),
      ((generate db results suite_name).regressions =
        (results.filter (regression_pred db)).map (mk_regression db)) ∧
      (∀ r ∈ results, r.passed = false →
        get_pass_rate db r.scenario_id 10 > 7/10 →
        mk_regression db r ∈ (generate db results suite_name).regressions) ∧
      (∀ e ∈ (generate db results suite_name).regressions,
        ∃ r ∈ results, r.passed = false ∧
          get_pass_rate db r.scenario_id 10 > 7/10 ∧
          e = mk_regression db r) := by
  intro db results suite_name
  have hchar : (generate db results suite_name).regressions =
      (results.filter (regression_pred db)).map (mk_regression db) := by
    have h := regressions_foldl db results []
    rw [List.nil_append] at h
    exact h
  refine ⟨hchar, ?_, ?_⟩
  · intro r hr hpass hrate
    rw [hchar]
    refine List.mem_map_of_mem _ ?_
    rw [List.mem_filter]
    refine ⟨hr, ?_⟩
    simp [regression_pred, hpass, hrate]
  · intro e he
    rw [hchar] at he
    rcases List.mem_map.mp he with ⟨r, hrf, hre⟩
    rcases List.mem_filter.mp hrf with ⟨hr, hpred⟩
    rcases Bool.and_eq_true_iff.mp hpred with ⟨hnp, hrate⟩
    refine ⟨r, hr, ?_, ?_, hre.symm⟩
    · simpa using hnp
    · simpa using hrate

/-- Store with 4 passing historical runs of one scenario (rate 1 > 0.7). -/
def regression_history_db : List RunRow :=
  store (store (store (store []
    (mk_row ("good") true none 1))
    (mk_row ("good") true none 2))
    (mk_row ("good") true none 3))
    (mk_row ("good") true none 4)

/-- A current failed result for the historically passing scenario. -/
def failed_good_result : RunResult :=
  { scenario_id := "good", scenario_name := "", category := "", passed := false,
    total_cost_usd := none, duration_ms := 0, tool_call_count := 0,
    verification_results := [], error := some ("oops"),
    failure_category := some ("agent_error") }

lemma regression_history_rate :
    get_pass_rate regression_history_db ("good") 10 = 1 := by
  have h : (runsByTimestampDesc regression_history_db ("good")).take 10 =
      [mk_row ("good") true none 4, mk_row ("good") true none 3,
       mk_row ("good") true none 2, mk_row ("good") true none 1] := by decide
  have hc : (List.countP (fun r => r.passed)
      [mk_row ("good") true none 4, mk_row ("good") true none 3,
       mk_row ("good") true none 2, mk_row ("good") true none 1]) = 4 := by decide
  rw [get_pass_rate]
  simp only [h, hc]
  norm_num

/-- Closed instance discharging the hypotheses of generate_regressions_spec:
the failed result of a scenario with a perfect 4-run history appears in the
regressions list, and every entry of that list traces back to such a
result. -/
theorem generate_regressions_spec_witness :
    mk_regression regression_history_db failed_good_result ∈
      (generate regression_history_db [failed_good_result] ("suite")).regressions ∧
    (∃ r ∈ [failed_good_result], r.passed = false ∧
      get_pass_rate regression_history_db r.scenario_id 10 > 7/10 ∧
      mk_regression regression_history_db failed_good_result =
        mk_regression regression_history_db r) := by
  have hrate : get_pass_rate regression_history_db ("good") 10 > 7/10 := by
    rw [regression_history_rate]
    norm_num
  have hmem := (generate_regressions_spec regression_history_db
    [failed_good_result] ("suite")).2.1 failed_good_result
    (List.mem_singleton.mpr rfl) rfl hrate
  refine ⟨hmem, ?_⟩
  exact (generate_regressions_spec regression_history_db
    [failed_good_result] ("suite")).2.2
    (mk_regression regression_history_db failed_good_result) hmem
